import Mathlib

/-!
A shallow embedding of the YouTube subscription-feed aggregator:
the core `getSubscriptionVideos` of `functions/youtubeSubscriptions.js`
together with its HTTP handler in `functions/index.js`.  Upstream
(YouTube Data API) responses are supplied by an oracle structure, so
every theorem quantifies over all possible upstream behaviours.
-/

namespace YtSubs

/-- JS truthiness of an optional string field (`if (x)`): the key is
present and the string is non-empty. -/
def truthy (o : Option String) : Bool := o.getD "" ≠ ""

/-- One item of the `subscriptions.list` response; the code only ever
reads `snippet.resourceId.channelId`.  A `null` items array is modelled
as the empty list (the code treats both identically). -/
structure SubscriptionItem where
  channelId : String
deriving Repr, DecidableEq

/-- One item of a per-channel `search.list` response; the code only ever
reads `id.videoId`. -/
structure SearchItem where
  videoId : String
deriving Repr, DecidableEq

/-- One item of a `videos.list` (detail) response: the fields the
formatter reads.  `publishedAt` is modelled as the numeric timestamp
that `new Date(video.snippet.publishedAt)` evaluates to. -/
structure VideoItem where
  id : String
  title : String
  description : String
  duration : String
  channelTitle : String
  publishedAt : Int
deriving Repr, DecidableEq

/-- A formatted video record as produced by the core function
(thumbnail/language fallback chains carry opaque strings and are not
read by any later step, so they are elided). -/
structure FormattedVideo where
  videoId : String
  title : String
  description : String
  duration : String
  channelName : String
  publishedAt : Int
deriving Repr, DecidableEq

/-- The request-dependent parameters of one per-channel `search.list`
call (`part`, `type` and `order` are constants in the code). -/
structure SearchParams where
  channelId : String
  maxResults : Int
  publishedBefore : Option String
deriving Repr, DecidableEq

/-- The upstream oracle: what each YouTube Data API call would return.
`subscriptionsList` is a single value because the code issues that call
with fixed arguments (`mine: true, maxResults: 50`). -/
structure Upstream where
  subscriptionsList : Except String (List SubscriptionItem)
  searchList : SearchParams → Except String (List SearchItem)
  videosList : List String → Except String (List VideoItem)

/-- The options object passed to the core function.  Fields are JS
object keys; `none` means the key is absent/`undefined`.  Note that the
object built by the HTTP handler carries a `publishedAfter` key while
the core destructures `publishedBefore`. -/
structure CoreOptions where
  maxResults : Option Int := none
  publishedAfter : Option String := none
  publishedBefore : Option String := none
  excludeList : Option (List String) := none

/-! ### Substring matching (JS `String.prototype.includes`) -/

/-- Whether `sub` occurs as a contiguous substring of `s` (`hasSub s sub`). -/
def hasSub : List Char → List Char → Bool
  | [], sub => sub.isPrefixOf ([] : List Char)
  | s@(_ :: rest), sub => sub.isPrefixOf s || hasSub rest sub

/-- JS `s.includes(sub)`. -/
def strIncludes (s sub : String) : Bool := hasSub s.data sub.data

/-! ### Chunking (the `for (let i = 0; i < xs.length; i += n)` /
`xs.slice(i, i + n)` loops).  Defined with explicit fuel so that it is
structurally recursive and evaluates inside the kernel. -/

/-- Auxiliary chunking function; the fuel bounds the number of chunks. -/
def chunksOfAux (n : Nat) : Nat → List α → List (List α)
  | _, [] => []
  | 0, _ :: _ => []
  | fuel + 1, x :: xs => (x :: xs).take n :: chunksOfAux n fuel ((x :: xs).drop n)

/-- Split a list into consecutive chunks of size `n` (last chunk may be
shorter).  For `n = 0` we return `[]`; the code only uses `n = 10` and
`n = 50`. -/
def chunksOf (n : Nat) (l : List α) : List (List α) :=
  if n = 0 then [] else chunksOfAux n l.length l

/-! ### The sort step.

`formattedVideos.sort((a, b) => new Date(b.publishedAt) - new Date(a.publishedAt))`
is a stable sort (ES2019 `Array.prototype.sort` is specified stable) by
descending published timestamp.  We model it as a stable insertion
sort, which any stable sort with the same comparison agrees with. -/

/-- Insert `v` before the first element whose timestamp is `≤ v`'s
(elements with strictly larger timestamps stay in front; ties keep the
already-placed — earlier input — element in front of nothing, i.e. `v`
goes before later-processed equal elements, which is what processing
the input left-to-right below yields). -/
def insertDesc (v : FormattedVideo) : List FormattedVideo → List FormattedVideo
  | [] => [v]
  | w :: ws =>
    if w.publishedAt ≤ v.publishedAt then v :: w :: ws
    else w :: insertDesc v ws

/-- Stable sort by descending `publishedAt`. -/
def sortDesc : List FormattedVideo → List FormattedVideo
  | [] => []
  | v :: vs => insertDesc v (sortDesc vs)

/-! ### The core aggregator (`functions/youtubeSubscriptions.js`) -/

/-- Model of `xs.slice(0, n)` for a JS number `n` (a negative `n` counts
from the end). -/
def sliceTo (l : List α) (n : Int) : List α :=
  if n < 0 then l.take (l.length - (-n).toNat) else l.take n.toNat

/-- The outcome of one per-channel `search.list` call as the loop body
sees it: a thrown error is caught and replaced by `[]`, and a missing
`items` field is `[]` as well. -/
def searchFor (u : Upstream) (p : SearchParams) : List SearchItem :=
  match u.searchList p with
  | .ok items => items
  | .error _ => []

/-- The `searchParams` object built for channel `c`:
`maxResults: Math.min(maxResults, 10)`, and `publishedBefore` attached
only when the option is truthy. -/
def searchParamsFor (maxResults : Int) (publishedBefore : Option String)
    (c : String) : SearchParams :=
  { channelId := c
    maxResults := min maxResults 10
    publishedBefore := if truthy publishedBefore then publishedBefore else none }

/-- The `allVideos` accumulation after the batched per-channel loop:
channels are
processed in groups of 10 (`batchSize`); each group's per-channel
results are joined (`Promise.all`) and appended in channel order. -/
def allVideosOf (u : Upstream) (maxResults : Int) (publishedBefore : Option String)
    (channelIds : List String) : List SearchItem :=
  (chunksOf 10 channelIds).flatMap
    (fun group =>
      (group.map (fun c => searchFor u (searchParamsFor maxResults publishedBefore c))).flatten)

/-- The `filteredVideos` step: drop every entry whose video id is in
`excludeList` (JS `excludeList.includes(...)`). -/
def filteredVideosOf (excludeList : List String) (allVideos : List SearchItem) :
    List SearchItem :=
  allVideos.filter (fun v => !(excludeList.contains v.videoId))

/-- The outcome of one 50-id `videos.list` detail batch as the loop
body sees it: the response `items` on success, `[]` when the call threw
(the error is caught and only logged). -/
def detailFor (u : Upstream) (batch : List String) : List VideoItem :=
  match u.videosList batch with
  | .ok items => items
  | .error _ => []

/-- The `detailedVideos` step: the 50-id detail batches, issued
sequentially; a
failed batch call is caught and contributes nothing. -/
def detailedVideosOf (u : Upstream) (videoIds : List String) : List VideoItem :=
  (chunksOf 50 videoIds).flatMap (detailFor u)

/-- The per-video formatting step. -/
def formatVideo (v : VideoItem) : FormattedVideo :=
  { videoId := v.id
    title := v.title
    description := v.description
    duration := v.duration
    channelName := v.channelTitle
    publishedAt := v.publishedAt }

/-- The core `getSubscriptionVideos(accessToken, options)`.  The
`accessToken` only selects the upstream behaviour, so it is absorbed
into the `Upstream` oracle.  A failure of the subscription-enumeration
call escapes to the outer catch, which rethrows
`Failed to get subscription videos: <message>`. -/
def getSubscriptionVideos (u : Upstream) (options : CoreOptions) :
    Except String (List FormattedVideo) :=
  let maxResults := options.maxResults.getD 25
  let publishedBefore := options.publishedBefore
  let excludeList := options.excludeList.getD []
  match u.subscriptionsList with
  | .error e => .error ("Failed to get subscription videos: " ++ e)
  | .ok items =>
    if items.isEmpty then .ok []
    else
      let channelIds := items.map (fun s => s.channelId)
      let allVideos := allVideosOf u maxResults publishedBefore channelIds
      let filteredVideos := filteredVideosOf excludeList allVideos
      let videoIds := filteredVideos.map (fun v => v.videoId)
      if videoIds.isEmpty then .ok []
      else
        let detailedVideos := detailedVideosOf u videoIds
        let formattedVideos := detailedVideos.map formatVideo
        .ok (sliceTo (sortDesc formattedVideos) maxResults)

/-- One upstream call, as recorded for quota accounting. -/
inductive UpstreamCall where
  | subscriptions (maxResults : Nat)
  | search (p : SearchParams)
  | videos (ids : List String)
deriving Repr, DecidableEq

/-- Project a trace entry to the channel id of a per-channel search
call (`none` for the other call kinds). -/
def searchChannelOf : UpstreamCall → Option String
  | UpstreamCall.search q => some q.channelId
  | _ => none

/-- The sequence of upstream calls the core issues, in program order
(calls inside one `Promise.all` group are recorded in channel order).
A failed call still appears — the code attempts it and catches the
error afterwards. -/
def callsOf (u : Upstream) (options : CoreOptions) : List UpstreamCall :=
  let maxResults := options.maxResults.getD 25
  let publishedBefore := options.publishedBefore
  let excludeList := options.excludeList.getD []
  match u.subscriptionsList with
  | .error _ => [.subscriptions 50]
  | .ok items =>
    if items.isEmpty then [.subscriptions 50]
    else
      let channelIds := items.map (fun s => s.channelId)
      let searchCalls :=
        channelIds.map (fun c => UpstreamCall.search (searchParamsFor maxResults publishedBefore c))
      let allVideos := allVideosOf u maxResults publishedBefore channelIds
      let videoIds := (filteredVideosOf excludeList allVideos).map (fun v => v.videoId)
      UpstreamCall.subscriptions 50 ::
        searchCalls ++
          (if videoIds.isEmpty then []
           else (chunksOf 50 videoIds).map (fun b => UpstreamCall.videos b))

/-- The exclusion-filtered raw video ids of a run (empty when the
enumeration fails or yields no subscriptions). -/
def pipelineVideoIds (u : Upstream) (options : CoreOptions) : List String :=
  match u.subscriptionsList with
  | .error _ => []
  | .ok items =>
    if items.isEmpty then []
    else
      (filteredVideosOf (options.excludeList.getD [])
        (allVideosOf u (options.maxResults.getD 25) options.publishedBefore
          (items.map (fun s => s.channelId)))).map (fun v => v.videoId)

/-! ### The HTTP handler (`exports.getSubscriptionVideos` in
`functions/index.js`), modelled from the point where the request body
is destructured (method and Authorization-header checks are upstream of
everything the claims mention and always succeed here). -/

/-- The request-body fields the handler destructures; `none` = absent. -/
structure HttpRequest where
  maxResults : Option Int := none
  publishedAfter : Option String := none
  excludeList : Option (List String) := none

/-- The handler's possible responses (constructor ↔ HTTP status):
`badRequest` ↔ 400, `ok` ↔ 200, `authError` ↔ 401, `quotaError` ↔ 429,
`serverError` ↔ 500. -/
inductive HandlerResponse where
  | badRequest (error : String)
  | ok (videos : List FormattedVideo) (count : Nat) (requestedCount : Int)
  | authError (error : String)
  | quotaError (error : String)
  | serverError (error details : String)
deriving Repr, DecidableEq

/-- The options object the handler builds:
`{ maxResults, publishedAfter, excludeList }` — note the key is
`publishedAfter`; no `publishedBefore` key is ever set. -/
def handlerOptions (req : HttpRequest) : CoreOptions :=
  { maxResults := some (req.maxResults.getD 25)
    publishedAfter := req.publishedAfter
    publishedBefore := none
    excludeList := some (req.excludeList.getD []) }

/-- The handler body.  `isValidDate s` models
`!isNaN(new Date(s).getTime())`. -/
def handleGetSubscriptionVideos (isValidDate : String → Bool) (u : Upstream)
    (req : HttpRequest) : HandlerResponse :=
  let maxResults := req.maxResults.getD 25
  if maxResults < 1 || maxResults > 100 then
    .badRequest "maxResults must be between 1 and 100"
  else if truthy req.publishedAfter && !(isValidDate (req.publishedAfter.getD "")) then
    .badRequest "publishedAfter must be a valid ISO 8601 date string"
  else
    match getSubscriptionVideos u (handlerOptions req) with
    | .ok videos => .ok videos videos.length maxResults
    | .error msg =>
      if strIncludes msg "invalid_grant" || strIncludes msg "unauthorized" then
        .authError "Invalid or expired access token"
      else if strIncludes msg "quota" then
        .quotaError "YouTube API quota exceeded"
      else
        .serverError "Failed to retrieve subscription videos" msg

/-! ### The quota-optimized variant's Channel Enumerator.

Modelled from the spec: the quota-optimized aggregator (the repository's
`/videos-optimized` path — `maxChannels`, over-fetching `2B`
subscription entries, one activities call per selected channel) is
described by the README and exercised by the quota test script, but its
implementation is not under `src/`.  Per spec §4.1 the enumerator
fetches up to `2B` subscription entries and returns the first `B`
channel ids in upstream order; per §4.2 an activity call is then issued
per selected channel. -/

/-- Modelled from the spec: `EnumerateSubscriptions` is called once with
limit `2B`; the channel id of each entry is extracted and the first `B`
are kept, in the order the upstream gave them. -/
def enumerateChannels (fetchSubs : Nat → Except String (List SubscriptionItem))
    (maxChannels : Nat) : Except String (List String) :=
  match fetchSubs (2 * maxChannels) with
  | .error e => .error e
  | .ok items => .ok ((items.map (fun s => s.channelId)).take maxChannels)

/-- Modelled from the spec: the channels the optimized variant queries
for activities — exactly the enumerator's output (none on enumeration
failure, which is fail-fast). -/
def activityCallChannels (fetchSubs : Nat → Except String (List SubscriptionItem))
    (maxChannels : Nat) : List String :=
  match enumerateChannels fetchSubs maxChannels with
  | .error _ => []
  | .ok cs => cs

/-! ### Concrete fixtures for witnesses and counterexamples -/

/-- One subscription, one video; detail calls echo the requested ids. -/
def simpleUpstream : Upstream :=
  { subscriptionsList := .ok [⟨"chA"⟩]
    searchList := fun _ => .ok [⟨"w1"⟩]
    videosList := fun batch =>
      .ok (batch.map (fun id => ⟨id, "t", "d", "PT1M", "c", 5⟩)) }

/-- A list of 51 per-channel search results whose first and last entries carry
the same video id `v0` (the middle 49 are distinct). -/
def exSearchItems : List SearchItem :=
  (List.range 50).map (fun i => ⟨"v" ++ toString i⟩) ++ [⟨"v0"⟩]

/-- An upstream whose calls are individually well-behaved (each detail
call returns exactly one record per requested id, and each batch it is
given holds distinct ids), but whose 51 filtered ids split into two
detail batches that both contain `v0`. -/
def exUpstream : Upstream :=
  { subscriptionsList := .ok [⟨"ch1"⟩]
    searchList := fun _ => .ok exSearchItems
    videosList := fun batch =>
      .ok (batch.map (fun id => ⟨id, "t", "d", "PT1M", "c", if id = "v0" then 100 else 0⟩)) }

/-- The video ids of a successful run (`[]` on failure). -/
def resultIdsOf (u : Upstream) (o : CoreOptions) : List String :=
  match getSubscriptionVideos u o with
  | .ok vs => vs.map (fun v => v.videoId)
  | .error _ => []

/-- Two search hits, one of which the caller excludes. -/
def exclUpstream : Upstream :=
  { subscriptionsList := .ok [⟨"chA"⟩]
    searchList := fun _ => .ok [⟨"w1"⟩, ⟨"x1"⟩]
    videosList := fun batch =>
      .ok (batch.map (fun id => ⟨id, "t", "d", "PT1M", "c", 5⟩)) }

/-- Options whose exclusion set holds `x1`. -/
def exclOptions : CoreOptions := { excludeList := some ["x1"] }

/-- Two videos with the same published timestamp (a sort tie). -/
def pairUpstream : Upstream :=
  { subscriptionsList := .ok [⟨"chA"⟩]
    searchList := fun _ => .ok [⟨"w1"⟩, ⟨"w2"⟩]
    videosList := fun batch =>
      .ok (batch.map (fun id => ⟨id, "t", "d", "PT1M", "c", 5⟩)) }

/-- The search parameters the code builds for channel `chA` under
default options. -/
def chAParams : SearchParams := ⟨"chA", 10, none⟩

/-- Two channels; the fetch for `chA` throws. -/
def chFailUpstream : Upstream :=
  { subscriptionsList := .ok [⟨"chA"⟩, ⟨"chB"⟩]
    searchList := fun p => if p = chAParams then .error "socket hang up" else .ok [⟨"w1"⟩]
    videosList := fun batch =>
      .ok (batch.map (fun id => ⟨id, "t", "d", "PT1M", "c", 5⟩)) }

/-- Same upstream with `chA`'s fetch succeeding with zero items. -/
def chFailFixed : Upstream :=
  { chFailUpstream with
    searchList := fun p => if p = chAParams then .ok [] else .ok [⟨"w1"⟩] }

/-- One video whose detail batch throws. -/
def batchFailUpstream : Upstream :=
  { subscriptionsList := .ok [⟨"chA"⟩]
    searchList := fun _ => .ok [⟨"w1"⟩]
    videosList := fun b =>
      if b = ["w1"] then .error "backend error"
      else .ok (b.map (fun id => ⟨id, "t", "d", "PT1M", "c", 5⟩)) }

/-- Same upstream with that batch succeeding with zero items. -/
def batchFailFixed : Upstream :=
  { batchFailUpstream with
    videosList := fun b =>
      if b = ["w1"] then .ok []
      else .ok (b.map (fun id => ⟨id, "t", "d", "PT1M", "c", 5⟩)) }

/-- Two channels, every per-channel fetch fails. -/
def allFailUpstream : Upstream :=
  { subscriptionsList := .ok [⟨"chA"⟩, ⟨"chB"⟩]
    searchList := fun _ => .error "ECONNRESET"
    videosList := fun _ => .ok [] }

/-- The enumeration call itself is rejected. -/
def authFailUpstream : Upstream :=
  { subscriptionsList := .error "unauthorized (401): invalid credentials"
    searchList := fun _ => .ok []
    videosList := fun _ => .ok [] }

/-- A user with zero subscriptions. -/
def noSubsUpstream : Upstream :=
  { subscriptionsList := .ok []
    searchList := fun _ => .ok []
    videosList := fun _ => .ok [] }

/-- Three subscription entries for the optimized enumerator. -/
def demoSubs : List SubscriptionItem := [⟨"c1"⟩, ⟨"c2"⟩, ⟨"c3"⟩]

/-- An upstream enumeration that honours its limit argument. -/
def demoFetchSubs (n : Nat) : Except String (List SubscriptionItem) :=
  .ok (demoSubs.take n)

/-! ### Lemmas and claim theorems -/

theorem hasSub_append_left (pre m sub : List Char) (h : hasSub m sub = true) :
    hasSub (pre ++ m) sub = true := by
  induction pre with
  | nil => simpa using h
  | cons c cs ih =>
    simp only [List.cons_append, hasSub, Bool.or_eq_true]
    exact Or.inr ih

theorem strIncludes_append_left (pre m sub : String)
    (h : strIncludes m sub = true) : strIncludes (pre ++ m) sub = true := by
  simpa [strIncludes, String.data_append] using hasSub_append_left pre.data m.data sub.data h

theorem chunksOfAux_congr (n : Nat) (hn : n ≠ 0) :
    ∀ (fuel fuel' : Nat) (l : List α), l.length ≤ fuel → l.length ≤ fuel' →
      chunksOfAux n fuel l = chunksOfAux n fuel' l := by
  intro fuel
  induction fuel with
  | zero =>
    intro fuel' l hf hf'
    match l with
    | [] => cases fuel' <;> rfl
    | x :: xs => simp at hf
  | succ f ih =>
    intro fuel' l hf hf'
    match l with
    | [] => cases fuel' <;> rfl
    | x :: xs =>
      match fuel', hf' with
      | f' + 1, hf' =>
        simp only [chunksOfAux]
        congr 1
        apply ih
        · have := List.length_drop n (x :: xs)
          simp only [List.length_cons] at hf ⊢
          rw [this]
          simp only [List.length_cons]
          omega
        · have := List.length_drop n (x :: xs)
          simp only [List.length_cons] at hf' ⊢
          rw [this]
          simp only [List.length_cons]
          omega

@[simp] theorem chunksOf_nil (n : Nat) : chunksOf n ([] : List α) = [] := by
  unfold chunksOf
  cases n <;> rfl

theorem chunksOf_cons (n : Nat) (hn : n ≠ 0) (l : List α) (hl : l ≠ []) :
    chunksOf n l = l.take n :: chunksOf n (l.drop n) := by
  match l with
  | [] => exact absurd rfl hl
  | x :: xs =>
    unfold chunksOf
    simp only [hn, if_false]
    have hlen : (x :: xs).length = xs.length + 1 := List.length_cons x xs
    rw [hlen]
    simp only [chunksOfAux]
    congr 1
    apply chunksOfAux_congr n hn
    · rw [List.length_drop]
      simp only [List.length_cons]
      omega
    · exact le_refl _

theorem flatten_chunksOf (n : Nat) (hn : n ≠ 0) (l : List α) :
    (chunksOf n l).flatten = l := by
  by_cases hl : l = []
  · subst hl; simp
  · rw [chunksOf_cons n hn l hl]
    simp only [List.flatten_cons]
    rw [flatten_chunksOf n hn (l.drop n)]
    exact List.take_append_drop n l
termination_by l.length
decreasing_by
  rw [List.length_drop]
  have h1 : 0 < n := Nat.pos_of_ne_zero hn
  have h2 : 0 < l.length := List.length_pos.mpr hl
  omega

theorem mem_of_mem_chunksOf {n : Nat} (hn : n ≠ 0) {l : List α} {c : List α}
    (hc : c ∈ chunksOf n l) {x : α} (hx : x ∈ c) : x ∈ l := by
  have : x ∈ (chunksOf n l).flatten := List.mem_flatten.mpr ⟨c, hc, hx⟩
  rwa [flatten_chunksOf n hn] at this

theorem length_le_of_mem_chunksOf {n : Nat} {l : List α} {c : List α}
    (hc : c ∈ chunksOf n l) : c.length ≤ n := by
  by_cases hl : l = []
  · subst hl; simp at hc
  · by_cases hn : n = 0
    · subst hn; simp [chunksOf] at hc
    · rw [chunksOf_cons n hn l hl] at hc
      rcases List.mem_cons.mp hc with h | h
      · subst h
        simp [List.length_take_le n l]
      · exact length_le_of_mem_chunksOf h
termination_by l.length
decreasing_by
  rw [List.length_drop]
  have h1 : 0 < n := Nat.pos_of_ne_zero hn
  have h2 : 0 < l.length := List.length_pos.mpr hl
  omega

theorem length_chunksOf (n : Nat) (hn : n ≠ 0) (l : List α) :
    (chunksOf n l).length = (l.length + n - 1) / n := by
  by_cases hl : l = []
  · subst hl
    simp only [chunksOf_nil, List.length_nil, Nat.zero_add]
    exact (Nat.div_eq_of_lt (by omega)).symm
  · rw [chunksOf_cons n hn l hl]
    simp only [List.length_cons]
    rw [length_chunksOf n hn (l.drop n)]
    rw [List.length_drop]
    have h1 : 0 < n := Nat.pos_of_ne_zero hn
    have h2 : 0 < l.length := List.length_pos.mpr hl
    by_cases hle : n ≤ l.length
    · have heq : l.length + n - 1 = (l.length - n + n - 1) + n := by omega
      rw [heq, Nat.add_div_right _ h1]
    · have hz : l.length - n = 0 := by omega
      rw [hz]
      have heq : l.length + n - 1 = n + (l.length - 1) := by omega
      rw [heq, Nat.add_div_left _ h1]
      have : (0 + n - 1) / n = 0 := Nat.div_eq_of_lt (by omega)
      rw [this]
      have : (l.length - 1) / n = 0 := Nat.div_eq_of_lt (by omega)
      rw [this]
termination_by l.length
decreasing_by
  rw [List.length_drop]
  have h1 : 0 < n := Nat.pos_of_ne_zero hn
  have h2 : 0 < l.length := List.length_pos.mpr hl
  omega

theorem dropLast_chunksOf_length (n : Nat) (hn : n ≠ 0) (l : List α) :
    ∀ c ∈ (chunksOf n l).dropLast, c.length = n := by
  by_cases hl : l = []
  · subst hl; simp
  · rw [chunksOf_cons n hn l hl]
    by_cases hd : l.drop n = []
    · rw [hd]
      simp
    · intro c hc
      rw [List.dropLast_cons_of_ne_nil] at hc
      · rcases List.mem_cons.mp hc with h | h
        · subst h
          rw [List.length_take]
          have h1 : 0 < n := Nat.pos_of_ne_zero hn
          have h2 : n < l.length := by
            by_contra hcon
            exact hd (List.drop_eq_nil_of_le (by omega))
          omega
        · exact dropLast_chunksOf_length n hn (l.drop n) c h
      · intro hcon
        rw [chunksOf_cons n hn _ hd] at hcon
        simp at hcon
termination_by l.length
decreasing_by
  rw [List.length_drop]
  have h1 : 0 < n := Nat.pos_of_ne_zero hn
  have h2 : 0 < l.length := List.length_pos.mpr hl
  omega

theorem flatMap_chunksOf (n : Nat) (hn : n ≠ 0) (l : List α) (f : α → List β) :
    (chunksOf n l).flatMap (fun c => (c.map f).flatten) = l.flatMap f := by
  by_cases hl : l = []
  · subst hl; simp
  · rw [chunksOf_cons n hn l hl]
    simp only [List.flatMap_cons]
    rw [flatMap_chunksOf n hn (l.drop n) f]
    have hmap : (List.map f (l.take n)).flatten = (l.take n).flatMap f := by
      simp [List.flatMap_def]
    rw [hmap, ← List.flatMap_append, List.take_append_drop]
termination_by l.length
decreasing_by
  rw [List.length_drop]
  have h1 : 0 < n := Nat.pos_of_ne_zero hn
  have h2 : 0 < l.length := List.length_pos.mpr hl
  omega

theorem mem_insertDesc {x v : FormattedVideo} {l : List FormattedVideo} :
    x ∈ insertDesc v l ↔ x = v ∨ x ∈ l := by
  induction l with
  | nil => simp [insertDesc]
  | cons w ws ih =>
    by_cases h : w.publishedAt ≤ v.publishedAt
    · simp [insertDesc, h]
    · simp only [insertDesc, if_neg h, List.mem_cons, ih]
      tauto

theorem insertDesc_perm (v : FormattedVideo) (l : List FormattedVideo) :
    (insertDesc v l).Perm (v :: l) := by
  induction l with
  | nil => simp [insertDesc]
  | cons w ws ih =>
    by_cases h : w.publishedAt ≤ v.publishedAt
    · simp [insertDesc, h]
    · simp only [insertDesc, if_neg h]
      exact (ih.cons w).trans (List.Perm.swap v w ws)

theorem sortDesc_perm (l : List FormattedVideo) : (sortDesc l).Perm l := by
  induction l with
  | nil => simp [sortDesc]
  | cons v vs ih =>
    exact (insertDesc_perm v (sortDesc vs)).trans (ih.cons v)

theorem length_sortDesc (l : List FormattedVideo) :
    (sortDesc l).length = l.length := (sortDesc_perm l).length_eq

theorem pairwise_insertDesc {v : FormattedVideo} {l : List FormattedVideo}
    (hl : l.Pairwise (fun a b => b.publishedAt ≤ a.publishedAt)) :
    (insertDesc v l).Pairwise (fun a b => b.publishedAt ≤ a.publishedAt) := by
  induction l with
  | nil => simp [insertDesc]
  | cons w ws ih =>
    rcases List.pairwise_cons.mp hl with ⟨hw, hws⟩
    by_cases h : w.publishedAt ≤ v.publishedAt
    · simp only [insertDesc, if_pos h]
      refine List.pairwise_cons.mpr ⟨?_, hl⟩
      intro x hx
      rcases List.mem_cons.mp hx with hx | hx
      · subst hx; exact h
      · exact le_trans (hw x hx) h
    · simp only [insertDesc, if_neg h]
      refine List.pairwise_cons.mpr ⟨?_, ih hws⟩
      intro x hx
      rcases mem_insertDesc.mp hx with hx | hx
      · subst hx; omega
      · exact hw x hx

theorem pairwise_sortDesc (l : List FormattedVideo) :
    (sortDesc l).Pairwise (fun a b => b.publishedAt ≤ a.publishedAt) := by
  induction l with
  | nil => simp [sortDesc]
  | cons v vs ih => exact pairwise_insertDesc ih

/-- Decomposition of one insertion: the target list splits as
`t₁ ++ t₂`, the result is `t₁ ++ v :: t₂`, and every element of `t₁`
has a strictly larger timestamp than `v`. -/
theorem insertDesc_decomp (v : FormattedVideo) (t : List FormattedVideo) :
    ∃ t₁ t₂, t = t₁ ++ t₂ ∧ insertDesc v t = t₁ ++ v :: t₂ ∧
      ∀ w ∈ t₁, ¬ w.publishedAt ≤ v.publishedAt := by
  induction t with
  | nil => exact ⟨[], [], rfl, rfl, by simp⟩
  | cons w ws ih =>
    by_cases h : w.publishedAt ≤ v.publishedAt
    · exact ⟨[], w :: ws, rfl, by simp [insertDesc, h], by simp⟩
    · rcases ih with ⟨t₁, t₂, ht, hins, hgt⟩
      refine ⟨w :: t₁, t₂, by rw [ht]; rfl, ?_, ?_⟩
      · simp only [insertDesc, if_neg h, hins, List.cons_append]
      · intro x hx
        rcases List.mem_cons.mp hx with hx | hx
        · subst hx; exact h
        · exact hgt x hx

theorem sublist_insertDesc {s t : List FormattedVideo} (v : FormattedVideo)
    (h : s.Sublist t) : s.Sublist (insertDesc v t) := by
  rcases insertDesc_decomp v t with ⟨t₁, t₂, ht, hins, -⟩
  rw [hins]
  rw [ht] at h
  exact h.middle v

/-- Inserting `a` into a list that contains an equally-timestamped `b`
places `a` in front of (some occurrence of) `b`. -/
theorem pair_sublist_insertDesc {a b : FormattedVideo}
    (hab : a.publishedAt = b.publishedAt) {t : List FormattedVideo}
    (hb : b ∈ t) : [a, b].Sublist (insertDesc a t) := by
  rcases insertDesc_decomp a t with ⟨t₁, t₂, ht, hins, hgt⟩
  rw [hins]
  rw [ht] at hb
  rcases List.mem_append.mp hb with hb1 | hb2
  · exact absurd (le_of_eq hab.symm) (hgt b hb1)
  · exact List.sublist_append_of_sublist_right
      ((List.singleton_sublist.mpr hb2).cons₂ a)

/-- Stability: a pair of equally-timestamped records that appears (in
order) in the input still appears in that order after sorting. -/
theorem sortDesc_stable {a b : FormattedVideo}
    (hab : a.publishedAt = b.publishedAt) :
    ∀ {l : List FormattedVideo}, [a, b].Sublist l → [a, b].Sublist (sortDesc l) := by
  intro l
  induction l with
  | nil => intro h; simp at h
  | cons x xs ih =>
    intro h
    cases h with
    | cons _ h' =>
      exact sublist_insertDesc x (ih h')
    | cons₂ _ h' =>
      exact pair_sublist_insertDesc hab
        ((sortDesc_perm xs).mem_iff.mpr (List.singleton_sublist.mp h'))

theorem getSubscriptionVideos_error {u : Upstream} {options : CoreOptions}
    {e : String} (h : u.subscriptionsList = .error e) :
    getSubscriptionVideos u options =
      .error ("Failed to get subscription videos: " ++ e) := by
  unfold getSubscriptionVideos
  rw [h]

theorem getSubscriptionVideos_ok_eq {u : Upstream} {options : CoreOptions}
    {items : List SubscriptionItem} (h : u.subscriptionsList = .ok items) :
    getSubscriptionVideos u options =
      if items.isEmpty then .ok []
      else
        if ((filteredVideosOf (options.excludeList.getD [])
              (allVideosOf u (options.maxResults.getD 25) options.publishedBefore
                (items.map (fun s => s.channelId)))).map (fun v => v.videoId)).isEmpty
        then .ok []
        else
          .ok (sliceTo
            (sortDesc ((detailedVideosOf u
              ((filteredVideosOf (options.excludeList.getD [])
                (allVideosOf u (options.maxResults.getD 25) options.publishedBefore
                  (items.map (fun s => s.channelId)))).map (fun v => v.videoId))).map
                formatVideo))
            (options.maxResults.getD 25)) := by
  unfold getSubscriptionVideos
  rw [h]

theorem pipelineVideoIds_error {u : Upstream} {options : CoreOptions}
    {e : String} (h : u.subscriptionsList = .error e) :
    pipelineVideoIds u options = [] := by
  unfold pipelineVideoIds
  rw [h]

theorem pipelineVideoIds_ok {u : Upstream} {options : CoreOptions}
    {items : List SubscriptionItem} (h : u.subscriptionsList = .ok items) :
    pipelineVideoIds u options =
      if items.isEmpty then []
      else
        (filteredVideosOf (options.excludeList.getD [])
          (allVideosOf u (options.maxResults.getD 25) options.publishedBefore
            (items.map (fun s => s.channelId)))).map (fun v => v.videoId) := by
  unfold pipelineVideoIds
  rw [h]

theorem callsOf_error {u : Upstream} {options : CoreOptions}
    {e : String} (h : u.subscriptionsList = .error e) :
    callsOf u options = [.subscriptions 50] := by
  unfold callsOf
  rw [h]

theorem callsOf_ok_eq {u : Upstream} {options : CoreOptions}
    {items : List SubscriptionItem} (h : u.subscriptionsList = .ok items) :
    callsOf u options =
      if items.isEmpty then [.subscriptions 50]
      else
        UpstreamCall.subscriptions 50 ::
          (items.map (fun s => s.channelId)).map
            (fun c =>
              UpstreamCall.search
                (searchParamsFor (options.maxResults.getD 25) options.publishedBefore c)) ++
          (if ((filteredVideosOf (options.excludeList.getD [])
                (allVideosOf u (options.maxResults.getD 25) options.publishedBefore
                  (items.map (fun s => s.channelId)))).map (fun v => v.videoId)).isEmpty
           then []
           else
            (chunksOf 50
              ((filteredVideosOf (options.excludeList.getD [])
                (allVideosOf u (options.maxResults.getD 25) options.publishedBefore
                  (items.map (fun s => s.channelId)))).map (fun v => v.videoId))).map
              (fun b => UpstreamCall.videos b)) := by
  unfold callsOf
  rw [h]

/-- Characterization of every successful run: the returned list is the
truncated, sorted formatting of the detail records fetched for the
exclusion-filtered ids.  (In the two early-return cases both sides are
`[]`.) -/
theorem core_ok_eq {u : Upstream} {options : CoreOptions}
    {vs : List FormattedVideo}
    (h : getSubscriptionVideos u options = .ok vs) :
    vs = sliceTo
      (sortDesc ((detailedVideosOf u (pipelineVideoIds u options)).map formatVideo))
      (options.maxResults.getD 25) := by
  cases hsubs : u.subscriptionsList with
  | error e =>
    rw [getSubscriptionVideos_error hsubs] at h
    simp at h
  | ok items =>
    rw [getSubscriptionVideos_ok_eq hsubs] at h
    rw [pipelineVideoIds_ok hsubs]
    by_cases hempty : items.isEmpty
    · rw [if_pos hempty] at h
      rw [if_pos hempty]
      cases h
      simp [detailedVideosOf, sliceTo, sortDesc]
    · rw [if_neg hempty] at h
      rw [if_neg hempty]
      by_cases hids :
          ((filteredVideosOf (options.excludeList.getD [])
            (allVideosOf u (options.maxResults.getD 25) options.publishedBefore
              (items.map (fun s => s.channelId)))).map (fun v => v.videoId)).isEmpty
      · rw [if_pos hids] at h
        cases h
        rw [List.isEmpty_iff] at hids
        rw [hids]
        simp [detailedVideosOf, sliceTo, sortDesc]
      · rw [if_neg hids] at h
        cases h
        rfl

/-! ### General helper lemmas about the pipeline -/

theorem sliceTo_sublist (l : List α) (n : Int) : (sliceTo l n).Sublist l := by
  unfold sliceTo
  split <;> exact List.take_sublist _ _

theorem length_sliceTo {l : List α} {n : Int} (hn : 0 ≤ n) :
    (sliceTo l n).length = min n.toNat l.length := by
  unfold sliceTo
  rw [if_neg (by omega)]
  exact List.length_take _ _

/-- Grouping the channels into batches of 10 and joining each group in
order yields the same concatenation as a plain per-channel traversal. -/
theorem allVideosOf_eq_flatMap (u : Upstream) (maxResults : Int)
    (publishedBefore : Option String) (channelIds : List String) :
    allVideosOf u maxResults publishedBefore channelIds =
      channelIds.flatMap (fun c => searchFor u (searchParamsFor maxResults publishedBefore c)) := by
  unfold allVideosOf
  exact flatMap_chunksOf 10 (by decide) channelIds _

theorem mem_detailedVideosOf {u : Upstream} {videoIds : List String} {w : VideoItem}
    (h : w ∈ detailedVideosOf u videoIds) :
    ∃ b ∈ chunksOf 50 videoIds, ∃ items, u.videosList b = .ok items ∧ w ∈ items := by
  unfold detailedVideosOf at h
  rcases List.mem_flatMap.mp h with ⟨b, hb, hw⟩
  refine ⟨b, hb, ?_⟩
  unfold detailFor at hw
  cases hvb : u.videosList b with
  | error e => rw [hvb] at hw; simp at hw
  | ok items => rw [hvb] at hw; exact ⟨items, rfl, hw⟩

/-- Every id the pipeline retains has survived the exclusion filter. -/
theorem contains_eq_false_of_mem_pipelineVideoIds {u : Upstream}
    {options : CoreOptions} {id : String} (h : id ∈ pipelineVideoIds u options) :
    (options.excludeList.getD []).contains id = false := by
  cases hsubs : u.subscriptionsList with
  | error e => rw [pipelineVideoIds_error hsubs] at h; simp at h
  | ok items =>
    rw [pipelineVideoIds_ok hsubs] at h
    by_cases hempty : items.isEmpty
    · rw [if_pos hempty] at h; simp at h
    · rw [if_neg hempty] at h
      rcases List.mem_map.mp h with ⟨v, hv, rfl⟩
      unfold filteredVideosOf at hv
      have hcond := List.of_mem_filter hv
      simpa using hcond

/-- Shape of any per-channel search call appearing in the call trace. -/
theorem mem_search_callsOf {u : Upstream} {options : CoreOptions} {p : SearchParams}
    (hp : UpstreamCall.search p ∈ callsOf u options) :
    ∃ items, u.subscriptionsList = .ok items ∧
      ∃ c ∈ items.map (fun s => s.channelId),
        p = searchParamsFor (options.maxResults.getD 25) options.publishedBefore c := by
  cases hsubs : u.subscriptionsList with
  | error e =>
    rw [callsOf_error hsubs] at hp
    simp at hp
  | ok items =>
    rw [callsOf_ok_eq hsubs] at hp
    refine ⟨items, rfl, ?_⟩
    by_cases hempty : items.isEmpty
    · rw [if_pos hempty] at hp; simp at hp
    · rw [if_neg hempty] at hp
      rcases List.mem_cons.mp hp with hcase | hp'
      · simp at hcase
      · rcases List.mem_append.mp hp' with hs | hv
        · rcases List.mem_map.mp hs with ⟨c, hc, hpc⟩
          exact ⟨c, hc, by injection hpc.symm⟩
        · exfalso
          split at hv
          · simp at hv
          · rcases List.mem_map.mp hv with ⟨b, -, hb⟩
            simp at hb

/-- Shape of any detail-batch call appearing in the call trace. -/
theorem mem_videos_callsOf {u : Upstream} {options : CoreOptions} {ids : List String}
    (hv : UpstreamCall.videos ids ∈ callsOf u options) :
    ids ∈ chunksOf 50 (pipelineVideoIds u options) := by
  cases hsubs : u.subscriptionsList with
  | error e =>
    rw [callsOf_error hsubs] at hv
    simp at hv
  | ok items =>
    rw [callsOf_ok_eq hsubs] at hv
    rw [pipelineVideoIds_ok hsubs]
    by_cases hempty : items.isEmpty
    · rw [if_pos hempty] at hv; simp at hv
    · rw [if_neg hempty] at hv
      rw [if_neg hempty]
      rcases List.mem_cons.mp hv with hcase | hv'
      · simp at hcase
      · rcases List.mem_append.mp hv' with hs | hvids
        · exfalso
          rcases List.mem_map.mp hs with ⟨c, -, hc⟩
          simp at hc
        · split at hvids
          · simp at hvids
          · rcases List.mem_map.mp hvids with ⟨b, hb, hbid⟩
            have hbids : b = ids := by injection hbid
            rwa [← hbids]

/-- The core only looks at the upstream through `subscriptionsList`,
`searchFor` and `videosList`; replacing the oracle by one that agrees
on those leaves the result unchanged. -/
theorem getSubscriptionVideos_congr (u u' : Upstream) (options : CoreOptions)
    (hs : u'.subscriptionsList = u.subscriptionsList)
    (hsf : ∀ p, searchFor u' p = searchFor u p)
    (hd : ∀ b, detailFor u' b = detailFor u b) :
    getSubscriptionVideos u' options = getSubscriptionVideos u options := by
  have hsfun : (fun c => searchFor u'
      (searchParamsFor (options.maxResults.getD 25) options.publishedBefore c)) =
      fun c => searchFor u
        (searchParamsFor (options.maxResults.getD 25) options.publishedBefore c) :=
    funext fun c => hsf _
  have hall : ∀ cs, allVideosOf u' (options.maxResults.getD 25) options.publishedBefore cs =
      allVideosOf u (options.maxResults.getD 25) options.publishedBefore cs := by
    intro cs
    rw [allVideosOf_eq_flatMap, allVideosOf_eq_flatMap, hsfun]
  have hdet : ∀ ids, detailedVideosOf u' ids = detailedVideosOf u ids := by
    intro ids
    unfold detailedVideosOf
    rw [funext hd]
  cases hsubs : u.subscriptionsList with
  | error e =>
    rw [getSubscriptionVideos_error hsubs, getSubscriptionVideos_error (hs.trans hsubs)]
  | ok items =>
    rw [getSubscriptionVideos_ok_eq hsubs, getSubscriptionVideos_ok_eq (hs.trans hsubs)]
    rw [hall, hdet]

/-! ### The claims -/

/-- C1: for every channel bound `B = maxChannels ∈ [1,50]`, the
(spec-modelled, quota-optimized) aggregator fetches at most `2B`
subscription entries, keeps exactly the first `B` channel ids in
upstream order, and issues activity queries for at most `B` channels.
(`hlimit` is the upstream contract that `EnumerateSubscriptions`
returns at most `limit` entries.) -/
theorem C1_channel_budget (fetchSubs : Nat → Except String (List SubscriptionItem))
    (B : Nat) (items : List SubscriptionItem)
    (_hB1 : 1 ≤ B) (_hB2 : B ≤ 50)
    (hlimit : ∀ n its, fetchSubs n = .ok its → its.length ≤ n)
    (hok : fetchSubs (2 * B) = .ok items) :
    items.length ≤ 2 * B ∧
    activityCallChannels fetchSubs B = (items.map (fun s => s.channelId)).take B ∧
    (activityCallChannels fetchSubs B).length ≤ B ∧
    (activityCallChannels fetchSubs B).length = min B items.length := by
  have hact : activityCallChannels fetchSubs B =
      (items.map (fun s => s.channelId)).take B := by
    unfold activityCallChannels enumerateChannels
    rw [hok]
  refine ⟨hlimit _ _ hok, hact, ?_, ?_⟩
  · rw [hact]
    have := List.length_take B (items.map (fun s => s.channelId))
    simp only [List.length_map] at this
    omega
  · rw [hact]
    simp [List.length_take]

/-- C1 witness: `B = 2` with three subscriptions and a limit-honouring
enumeration. -/
theorem C1_channel_budget_witness :
    demoSubs.length ≤ 2 * 2 ∧
    activityCallChannels demoFetchSubs 2 = (demoSubs.map (fun s => s.channelId)).take 2 ∧
    (activityCallChannels demoFetchSubs 2).length ≤ 2 ∧
    (activityCallChannels demoFetchSubs 2).length = min 2 demoSubs.length :=
  C1_channel_budget demoFetchSubs 2 demoSubs (by decide) (by decide)
    (fun n its h => by
      cases h
      exact List.length_take_le n demoSubs)
    (by rfl)

/-- C2 counterexample: the claim "for every request and every upstream
response the returned video ids are pairwise distinct" is false — with
one channel returning 51 entries in which `v0` occurs twice, the two
detail batches both return a record for `v0` and the final list
contains `v0` twice (the code has no deduplication step). -/
theorem C2_counterexample : ¬ (resultIdsOf exUpstream {}).Nodup := by decide

/-- C2 (amended): the returned video ids are pairwise distinct whenever
the detail records collected across batches have pairwise-distinct ids
(sorting and truncation introduce no duplicates; the code itself never
deduplicates). -/
theorem C2_distinct_ids (u : Upstream) (options : CoreOptions)
    (vs : List FormattedVideo)
    (h : getSubscriptionVideos u options = .ok vs)
    (hnd : ((detailedVideosOf u (pipelineVideoIds u options)).map (fun v => v.id)).Nodup) :
    (vs.map (fun v => v.videoId)).Nodup := by
  have hv := core_ok_eq h
  subst hv
  set D := detailedVideosOf u (pipelineVideoIds u options) with hD
  have hmm : (D.map formatVideo).map (fun v => v.videoId) = D.map (fun v => v.id) := by
    rw [List.map_map]
    rfl
  have hperm : List.Perm
      ((sortDesc (D.map formatVideo)).map (fun v => v.videoId))
      ((D.map formatVideo).map (fun v => v.videoId)) :=
    (sortDesc_perm (D.map formatVideo)).map _
  have hnd2 : ((sortDesc (D.map formatVideo)).map (fun v => v.videoId)).Nodup :=
    hperm.symm.nodup (by rw [hmm]; exact hnd)
  have hsub : List.Sublist
      ((sliceTo (sortDesc (D.map formatVideo)) (options.maxResults.getD 25)).map
        (fun v => v.videoId))
      ((sortDesc (D.map formatVideo)).map (fun v => v.videoId)) :=
    (sliceTo_sublist _ _).map _
  exact hsub.nodup hnd2

/-- C2 amended witness: a one-channel, one-video run. -/
theorem C2_distinct_ids_witness :
    (([⟨"w1", "t", "d", "PT1M", "c", 5⟩] : List FormattedVideo).map
      (fun v => v.videoId)).Nodup :=
  C2_distinct_ids simpleUpstream {} _ (by rfl) (by decide)

/-- C3: no excluded video id survives the filter — it appears in no
detail-batch call, and (as long as detail calls only return records for
the ids they were asked, which is the upstream `videos.list` contract)
not in the returned list either. -/
theorem C3_exclusion (u : Upstream) (options : CoreOptions)
    (b : List String) (id : String) (vs : List FormattedVideo) (v : FormattedVideo)
    (hdetail : ∀ bq its, u.videosList bq = .ok its → ∀ w ∈ its, w.id ∈ bq)
    (hb : b ∈ chunksOf 50 (pipelineVideoIds u options))
    (hid : id ∈ b)
    (hvs : getSubscriptionVideos u options = .ok vs)
    (hv : v ∈ vs) :
    (options.excludeList.getD []).contains id = false ∧
    (options.excludeList.getD []).contains v.videoId = false := by
  constructor
  · exact contains_eq_false_of_mem_pipelineVideoIds
      (mem_of_mem_chunksOf (by decide) hb hid)
  · have hveq := core_ok_eq hvs
    rw [hveq] at hv
    have hv2 : v ∈ sortDesc ((detailedVideosOf u (pipelineVideoIds u options)).map formatVideo) :=
      (sliceTo_sublist _ _).mem hv
    have hv3 : v ∈ (detailedVideosOf u (pipelineVideoIds u options)).map formatVideo :=
      (sortDesc_perm _).mem_iff.mp hv2
    rcases List.mem_map.mp hv3 with ⟨w, hw, rfl⟩
    rcases mem_detailedVideosOf hw with ⟨bq, hbq, its, hits, hwits⟩
    have hwid : w.id ∈ bq := hdetail bq its hits w hwits
    have hmem : w.id ∈ pipelineVideoIds u options :=
      mem_of_mem_chunksOf (by decide) hbq hwid
    exact contains_eq_false_of_mem_pipelineVideoIds hmem

/-- C3 witness: one excluded id `x1` alongside one kept id `w1`. -/
theorem C3_exclusion_witness :
    (exclOptions.excludeList.getD []).contains "w1" = false ∧
    (exclOptions.excludeList.getD []).contains
      (⟨"w1", "t", "d", "PT1M", "c", 5⟩ : FormattedVideo).videoId = false :=
  C3_exclusion exclUpstream exclOptions ["w1"] "w1" [⟨"w1", "t", "d", "PT1M", "c", 5⟩]
    ⟨"w1", "t", "d", "PT1M", "c", 5⟩
    (fun bq its h w hw => by
      cases h
      rcases List.mem_map.mp hw with ⟨idq, hidq, rfl⟩
      exact hidq)
    (by decide) (by decide) (by rfl) (by decide)

/-- C4 counterexample: the claimed formula `1 + C + ceil(n/50)` with
`n` the number of *distinct* filtered ids fails — the run over one
channel makes 4 calls (two detail batches, because the 51 non-dedup
filtered ids straddle the 50 boundary) while the formula with the 50
distinct ids gives 3. -/
theorem C4_counterexample :
    (pipelineVideoIds exUpstream {}).dedup.length = 50 ∧
    (callsOf exUpstream {}).length = 4 ∧
    (callsOf exUpstream {}).length ≠
      1 + 1 + (((pipelineVideoIds exUpstream {}).dedup.length + 49) / 50) := by
  refine ⟨by decide, by decide, by decide⟩

/-- C4 (amended): with `n` the number of exclusion-filtered video id
*occurrences* (the code performs no deduplication), every run whose
enumeration succeeds makes exactly `1 + C + ceil(n/50)` upstream calls
(`C` = number of enumerated channels, failed calls included), and every
detail batch holds at most 50 ids. -/
theorem C4_call_count (u : Upstream) (options : CoreOptions)
    (items : List SubscriptionItem)
    (hsubs : u.subscriptionsList = .ok items) :
    (callsOf u options).length =
      1 + items.length + (((pipelineVideoIds u options).length + 49) / 50) ∧
    (callsOf u options).all
      (fun c => match c with
        | UpstreamCall.videos ids => ids.length ≤ 50
        | _ => true) = true := by
  constructor
  · rw [callsOf_ok_eq hsubs, pipelineVideoIds_ok hsubs]
    by_cases hempty : items.isEmpty
    · rw [if_pos hempty, if_pos hempty]
      have : items = [] := List.isEmpty_iff.mp hempty
      subst this
      simp
    · rw [if_neg hempty, if_neg hempty]
      simp only [List.length_cons, List.length_append, List.length_map]
      split
      · rename_i hids
        rw [List.isEmpty_iff] at hids
        have hlen : (filteredVideosOf (options.excludeList.getD [])
            (allVideosOf u (options.maxResults.getD 25) options.publishedBefore
              (items.map (fun s => s.channelId)))).length = 0 := by
          have := congrArg List.length hids
          simpa using this
        rw [hlen]
        simp
        omega
      · rw [List.length_map, length_chunksOf 50 (by decide), List.length_map]
        omega
  · rw [List.all_eq_true]
    intro c hc
    match c with
    | UpstreamCall.subscriptions n => rfl
    | UpstreamCall.search p => rfl
    | UpstreamCall.videos ids =>
      have := length_le_of_mem_chunksOf (mem_videos_callsOf hc)
      exact decide_eq_true this

/-- C4 amended witness: the one-channel, one-video run makes
`1 + 1 + 1 = 3` calls. -/
theorem C4_call_count_witness :
    (callsOf simpleUpstream {}).length =
      1 + ([(⟨"chA"⟩ : SubscriptionItem)]).length +
        (((pipelineVideoIds simpleUpstream {}).length + 49) / 50) ∧
    (callsOf simpleUpstream {}).all
      (fun c => match c with
        | UpstreamCall.videos ids => ids.length ≤ 50
        | _ => true) = true :=
  C4_call_count simpleUpstream {} [⟨"chA"⟩] (by rfl)

/-- The core never reads the `publishedAfter` key (or any other key
beyond `maxResults`, `publishedBefore`, `excludeList`). -/
theorem getSubscriptionVideos_options_ext (u : Upstream) (o o' : CoreOptions)
    (hm : o.maxResults = o'.maxResults)
    (hp : o.publishedBefore = o'.publishedBefore)
    (he : o.excludeList = o'.excludeList) :
    getSubscriptionVideos u o = getSubscriptionVideos u o' := by
  unfold getSubscriptionVideos
  rw [hm, hp, he]

/-- C5: every successful result is non-increasing in `publishedAt`; the
sort is stable (an equally-timestamped pair keeps its input order), and
the result is exactly the truncation of that stable sort. -/
theorem C5_sorted_desc (u : Upstream) (options : CoreOptions)
    (vs : List FormattedVideo) (a b : FormattedVideo)
    (h : getSubscriptionVideos u options = .ok vs)
    (hab : a.publishedAt = b.publishedAt)
    (hsub : [a, b].Sublist
      ((detailedVideosOf u (pipelineVideoIds u options)).map formatVideo)) :
    vs.Pairwise (fun x y => y.publishedAt ≤ x.publishedAt) ∧
    [a, b].Sublist
      (sortDesc ((detailedVideosOf u (pipelineVideoIds u options)).map formatVideo)) ∧
    vs = sliceTo
      (sortDesc ((detailedVideosOf u (pipelineVideoIds u options)).map formatVideo))
      (options.maxResults.getD 25) := by
  have hveq := core_ok_eq h
  refine ⟨?_, sortDesc_stable hab hsub, hveq⟩
  rw [hveq]
  exact List.Pairwise.sublist (sliceTo_sublist _ _) (pairwise_sortDesc _)

/-- C5 witness: two equally-timestamped videos stay in input order. -/
theorem C5_sorted_desc_witness :
    ([⟨"w1", "t", "d", "PT1M", "c", 5⟩, ⟨"w2", "t", "d", "PT1M", "c", 5⟩] :
        List FormattedVideo).Pairwise (fun x y => y.publishedAt ≤ x.publishedAt) ∧
    List.Sublist
      ([⟨"w1", "t", "d", "PT1M", "c", 5⟩, ⟨"w2", "t", "d", "PT1M", "c", 5⟩] :
        List FormattedVideo)
      (sortDesc ((detailedVideosOf pairUpstream
        (pipelineVideoIds pairUpstream {})).map formatVideo)) ∧
    ([⟨"w1", "t", "d", "PT1M", "c", 5⟩, ⟨"w2", "t", "d", "PT1M", "c", 5⟩] :
        List FormattedVideo) =
      sliceTo
        (sortDesc ((detailedVideosOf pairUpstream
          (pipelineVideoIds pairUpstream {})).map formatVideo))
        (({} : CoreOptions).maxResults.getD 25) :=
  C5_sorted_desc pairUpstream {} _ _ _ (by rfl) (by rfl)
    (by
      have heq : (detailedVideosOf pairUpstream
          (pipelineVideoIds pairUpstream {})).map formatVideo =
          ([⟨"w1", "t", "d", "PT1M", "c", 5⟩, ⟨"w2", "t", "d", "PT1M", "c", 5⟩] :
            List FormattedVideo) := rfl
      rw [heq])

/-- C6: whenever the HTTP handler answers 200, the reported count is
the length of the returned list, which equals
`min(maxResults, number of detail records)` and so never exceeds the
request's `maxResults`. -/
theorem C6_count_eq (isValidDate : String → Bool) (u : Upstream) (req : HttpRequest)
    (vs : List FormattedVideo) (count : Nat) (requested : Int)
    (h : handleGetSubscriptionVideos isValidDate u req = .ok vs count requested) :
    count = vs.length ∧
    vs.length = min ((req.maxResults.getD 25).toNat)
      (detailedVideosOf u (pipelineVideoIds u (handlerOptions req))).length ∧
    vs.length ≤ (req.maxResults.getD 25).toNat ∧
    requested = req.maxResults.getD 25 := by
  unfold handleGetSubscriptionVideos at h
  simp only [] at h
  by_cases hb : (decide (req.maxResults.getD 25 < 1) ||
      decide (req.maxResults.getD 25 > 100)) = true
  · rw [if_pos hb] at h
    exact absurd h (by simp)
  · rw [if_neg hb] at h
    by_cases hd : (truthy req.publishedAfter &&
        !(isValidDate (req.publishedAfter.getD ""))) = true
    · rw [if_pos hd] at h
      exact absurd h (by simp)
    · rw [if_neg hd] at h
      cases hcore : getSubscriptionVideos u (handlerOptions req) with
      | error msg =>
        rw [hcore] at h
        simp only [] at h
        split at h
        · simp at h
        · split at h <;> simp at h
      | ok videos =>
        rw [hcore] at h
        simp only [] at h
        simp only [HandlerResponse.ok.injEq] at h
        obtain ⟨hvs, hcount, hreq⟩ := h
        have hm1 : ¬ req.maxResults.getD 25 < 1 := by
          intro hlt
          simp [hlt] at hb
        have hveq := core_ok_eq hcore
        have hmx : (handlerOptions req).maxResults.getD 25 = req.maxResults.getD 25 := rfl
        rw [hmx] at hveq
        have hlen : videos.length = min ((req.maxResults.getD 25).toNat)
            (detailedVideosOf u (pipelineVideoIds u (handlerOptions req))).length := by
          rw [hveq, length_sliceTo (by omega), length_sortDesc, List.length_map]
        refine ⟨?_, ?_, ?_, hreq.symm⟩
        · rw [← hvs, ← hcount]
        · rw [← hvs]
          exact hlen
        · rw [← hvs]
          rw [hlen]
          exact Nat.min_le_left _ _

/-- C6 witness: the one-channel, one-video run answers
`count = 1 = min(25, 1)`. -/
theorem C6_count_eq_witness :
    (1 : Nat) = ([(⟨"w1", "t", "d", "PT1M", "c", 5⟩ : FormattedVideo)]).length ∧
    ([(⟨"w1", "t", "d", "PT1M", "c", 5⟩ : FormattedVideo)]).length =
      min ((({} : HttpRequest).maxResults.getD 25).toNat)
        (detailedVideosOf simpleUpstream
          (pipelineVideoIds simpleUpstream (handlerOptions {}))).length ∧
    ([(⟨"w1", "t", "d", "PT1M", "c", 5⟩ : FormattedVideo)]).length ≤
      (({} : HttpRequest).maxResults.getD 25).toNat ∧
    (25 : Int) = ({} : HttpRequest).maxResults.getD 25 :=
  C6_count_eq (fun _ => true) simpleUpstream {}
    [⟨"w1", "t", "d", "PT1M", "c", 5⟩] 1 25 (by rfl)

/-- C7: one failing per-channel fetch is equivalent to that channel
returning zero items; one failing detail batch is equivalent to that
batch returning zero records; and a run in which every per-channel
fetch fails still succeeds with an empty result. -/
theorem C7_failure_tolerance
    (u u' w w' z : Upstream) (options : CoreOptions)
    (p0 : SearchParams) (e : String) (bw : List String) (ew : String)
    (zitems : List SubscriptionItem)
    (hs : u'.subscriptionsList = u.subscriptionsList)
    (hv : u'.videosList = u.videosList)
    (hp0 : u.searchList p0 = .error e)
    (hp0' : u'.searchList p0 = .ok [])
    (hrest : ∀ p, p ≠ p0 → u'.searchList p = u.searchList p)
    (hws : w'.subscriptionsList = w.subscriptionsList)
    (hwse : w'.searchList = w.searchList)
    (hb0 : w.videosList bw = .error ew)
    (hb0' : w'.videosList bw = .ok [])
    (hwrest : ∀ bq, bq ≠ bw → w'.videosList bq = w.videosList bq)
    (hz : z.subscriptionsList = .ok zitems)
    (hzfail : ∀ p, ∃ e2, z.searchList p = .error e2) :
    getSubscriptionVideos u' options = getSubscriptionVideos u options ∧
    getSubscriptionVideos w' options = getSubscriptionVideos w options ∧
    getSubscriptionVideos z options = .ok [] := by
  refine ⟨?_, ?_, ?_⟩
  · apply getSubscriptionVideos_congr u u' options hs
    · intro p
      by_cases hpp : p = p0
      · subst hpp
        unfold searchFor
        rw [hp0, hp0']
      · unfold searchFor
        rw [hrest p hpp]
    · intro bq
      unfold detailFor
      rw [hv]
  · apply getSubscriptionVideos_congr w w' options hws
    · intro p
      unfold searchFor
      rw [hwse]
    · intro bq
      by_cases hbb : bq = bw
      · subst hbb
        unfold detailFor
        rw [hb0, hb0']
      · unfold detailFor
        rw [hwrest bq hbb]
  · have hsf : ∀ p, searchFor z p = [] := by
      intro p
      rcases hzfail p with ⟨e2, he2⟩
      unfold searchFor
      rw [he2]
    rw [getSubscriptionVideos_ok_eq hz]
    by_cases hempty : zitems.isEmpty
    · rw [if_pos hempty]
    · rw [if_neg hempty]
      have hall : allVideosOf z (options.maxResults.getD 25) options.publishedBefore
          (zitems.map (fun s => s.channelId)) = [] := by
        rw [allVideosOf_eq_flatMap]
        have hfn : (fun c => searchFor z
            (searchParamsFor (options.maxResults.getD 25) options.publishedBefore c)) =
            fun _ => ([] : List SearchItem) := funext fun c => hsf _
        rw [hfn]
        simp
      rw [hall]
      simp [filteredVideosOf]

/-- C7 witness: a failing channel, a failing detail batch, and an
all-channels-fail run over concrete upstreams. -/
theorem C7_failure_tolerance_witness :
    getSubscriptionVideos chFailFixed {} = getSubscriptionVideos chFailUpstream {} ∧
    getSubscriptionVideos batchFailFixed {} = getSubscriptionVideos batchFailUpstream {} ∧
    getSubscriptionVideos allFailUpstream {} = .ok [] :=
  C7_failure_tolerance chFailUpstream chFailFixed batchFailUpstream batchFailFixed
    allFailUpstream {} chAParams "socket hang up" ["w1"] "backend error"
    [⟨"chA"⟩, ⟨"chB"⟩]
    (by rfl) (by rfl) (by simp [chFailUpstream]) (by simp [chFailFixed])
    (fun p hp => by simp [chFailFixed, chFailUpstream, hp])
    (by rfl) (by rfl) (by simp [batchFailUpstream]) (by simp [batchFailFixed])
    (fun bq hb => by simp [batchFailFixed, batchFailUpstream, hb])
    (by rfl) (fun p => ⟨"ECONNRESET", rfl⟩)

/-- C8: a failing subscription-enumeration call aborts the whole run
before any fan-out — the trace holds the one enumeration call only —
and an auth-flavoured failure surfaces as the handler's 401 auth error;
a user with zero subscriptions instead gets a successful empty result
(again with no further upstream calls, as there is nothing to fetch). -/
theorem C8_enumeration_failure (isValidDate : String → Bool) (u u' : Upstream)
    (req : HttpRequest) (e : String)
    (herr : u.subscriptionsList = .error e)
    (hok : u'.subscriptionsList = .ok [])
    (hb : (decide (req.maxResults.getD 25 < 1) ||
      decide (req.maxResults.getD 25 > 100)) = false)
    (hd : (truthy req.publishedAfter &&
      !(isValidDate (req.publishedAfter.getD ""))) = false)
    (hauth : strIncludes e "unauthorized" = true) :
    getSubscriptionVideos u (handlerOptions req) =
      .error ("Failed to get subscription videos: " ++ e) ∧
    callsOf u (handlerOptions req) = [.subscriptions 50] ∧
    handleGetSubscriptionVideos isValidDate u req =
      .authError "Invalid or expired access token" ∧
    getSubscriptionVideos u' (handlerOptions req) = .ok [] ∧
    callsOf u' (handlerOptions req) = [.subscriptions 50] := by
  refine ⟨getSubscriptionVideos_error herr, callsOf_error herr, ?_, ?_, ?_⟩
  · unfold handleGetSubscriptionVideos
    simp only []
    rw [if_neg (by simp [hb]), if_neg (by simp [hd])]
    rw [getSubscriptionVideos_error herr]
    simp only []
    rw [if_pos]
    rw [Bool.or_eq_true]
    exact Or.inr
      (strIncludes_append_left "Failed to get subscription videos: " e "unauthorized" hauth)
  · rw [getSubscriptionVideos_ok_eq hok]
    simp
  · rw [callsOf_ok_eq hok]
    simp

/-- C8 witness: a rejected credential and a zero-subscription user. -/
theorem C8_enumeration_failure_witness :
    getSubscriptionVideos authFailUpstream (handlerOptions {}) =
      .error ("Failed to get subscription videos: " ++
        "unauthorized (401): invalid credentials") ∧
    callsOf authFailUpstream (handlerOptions {}) = [.subscriptions 50] ∧
    handleGetSubscriptionVideos (fun _ => true) authFailUpstream {} =
      .authError "Invalid or expired access token" ∧
    getSubscriptionVideos noSubsUpstream (handlerOptions {}) = .ok [] ∧
    callsOf noSubsUpstream (handlerOptions {}) = [.subscriptions 50] :=
  C8_enumeration_failure (fun _ => true) authFailUpstream noSubsUpstream {}
    "unauthorized (401): invalid credentials"
    (by rfl) (by rfl) (by decide) (by decide) (by decide)

theorem filterMap_search_channels (m : Int) (pb : Option String) (cs : List String) :
    List.filterMap searchChannelOf
      (cs.map (fun c => UpstreamCall.search (searchParamsFor m pb c))) = cs := by
  induction cs with
  | nil => rfl
  | cons x xs ih =>
    have hsome : searchChannelOf (UpstreamCall.search (searchParamsFor m pb x)) = some x := rfl
    rw [List.map_cons, List.filterMap_cons_some hsome, ih]

theorem filterMap_search_videos (bs : List (List String)) :
    List.filterMap searchChannelOf (bs.map (fun b => UpstreamCall.videos b)) = [] := by
  induction bs with
  | nil => rfl
  | cons x xs ih =>
    have hnone : searchChannelOf (UpstreamCall.videos x) = none := rfl
    rw [List.map_cons, List.filterMap_cons_none hnone, ih]

/-- C9: each per-channel search call requests
`min(requestedMax, 10)` results and carries the cutoff exactly when one
was supplied; the trace holds exactly one search call per enumerated
channel in order; the channels are partitioned into consecutive groups
of at most 10 (all but the last exactly 10); and the grouped,
group-joined traversal appends results in plain channel order. -/
theorem C9_search_limits_and_grouping (u : Upstream) (options : CoreOptions)
    (items : List SubscriptionItem) (p : SearchParams) (cs : List String)
    (hsubs : u.subscriptionsList = .ok items)
    (hp : UpstreamCall.search p ∈ callsOf u options) :
    p.maxResults = min (options.maxResults.getD 25) 10 ∧
    p.maxResults ≤ 10 ∧
    p.publishedBefore =
      (if truthy options.publishedBefore then options.publishedBefore else none) ∧
    (callsOf u options).filterMap searchChannelOf =
      (if items.isEmpty then [] else items.map (fun s => s.channelId)) ∧
    (chunksOf 10 (items.map (fun s => s.channelId))).flatten =
      items.map (fun s => s.channelId) ∧
    (chunksOf 10 (items.map (fun s => s.channelId))).all
      (fun g => g.length ≤ 10) = true ∧
    ((chunksOf 10 (items.map (fun s => s.channelId))).dropLast).all
      (fun g => g.length = 10) = true ∧
    allVideosOf u (options.maxResults.getD 25) options.publishedBefore cs =
      cs.flatMap
        (fun c =>
          searchFor u (searchParamsFor (options.maxResults.getD 25) options.publishedBefore c)) := by
  obtain ⟨items', hsubs', c, hc, hpeq⟩ := mem_search_callsOf hp
  have hii : items = items' := by
    have h2 := hsubs.symm.trans hsubs'
    injection h2
  subst hii
  refine ⟨by rw [hpeq]; rfl, ?_, by rw [hpeq]; rfl, ?_, ?_, ?_, ?_, ?_⟩
  · rw [hpeq]
    show min (options.maxResults.getD 25) 10 ≤ 10
    exact min_le_right _ _
  · rw [callsOf_ok_eq hsubs]
    by_cases hempty : items.isEmpty
    · rw [if_pos hempty, if_pos hempty]
      rfl
    · rw [if_neg hempty, if_neg hempty]
      have hnone : searchChannelOf (UpstreamCall.subscriptions 50) = none := rfl
      rw [List.filterMap_append, List.filterMap_cons_none hnone,
        filterMap_search_channels]
      split
      · rw [List.filterMap_nil, List.append_nil]
      · rw [filterMap_search_videos, List.append_nil]
  · exact flatten_chunksOf 10 (by decide) _
  · rw [List.all_eq_true]
    intro g hg
    exact decide_eq_true (length_le_of_mem_chunksOf hg)
  · rw [List.all_eq_true]
    intro g hg
    exact decide_eq_true (dropLast_chunksOf_length 10 (by decide) _ g hg)
  · exact allVideosOf_eq_flatMap u _ _ cs

/-- C9 witness: the one-channel run issues one search call with limit
`min(25, 10) = 10` and no cutoff. -/
theorem C9_search_limits_and_grouping_witness :
    (⟨"chA", 10, none⟩ : SearchParams).maxResults =
      min (({} : CoreOptions).maxResults.getD 25) 10 ∧
    (⟨"chA", 10, none⟩ : SearchParams).maxResults ≤ 10 ∧
    (⟨"chA", 10, none⟩ : SearchParams).publishedBefore =
      (if truthy ({} : CoreOptions).publishedBefore
        then ({} : CoreOptions).publishedBefore else none) ∧
    (callsOf simpleUpstream {}).filterMap searchChannelOf =
      (if ([(⟨"chA"⟩ : SubscriptionItem)]).isEmpty then []
       else [(⟨"chA"⟩ : SubscriptionItem)].map (fun s => s.channelId)) ∧
    (chunksOf 10 ([(⟨"chA"⟩ : SubscriptionItem)].map (fun s => s.channelId))).flatten =
      [(⟨"chA"⟩ : SubscriptionItem)].map (fun s => s.channelId) ∧
    (chunksOf 10 ([(⟨"chA"⟩ : SubscriptionItem)].map (fun s => s.channelId))).all
      (fun g => g.length ≤ 10) = true ∧
    ((chunksOf 10 ([(⟨"chA"⟩ : SubscriptionItem)].map (fun s => s.channelId))).dropLast).all
      (fun g => g.length = 10) = true ∧
    allVideosOf simpleUpstream (({} : CoreOptions).maxResults.getD 25)
        (({} : CoreOptions).publishedBefore) ["chA"] =
      ["chA"].flatMap
        (fun c =>
          searchFor simpleUpstream
            (searchParamsFor (({} : CoreOptions).maxResults.getD 25)
              (({} : CoreOptions).publishedBefore) c)) :=
  C9_search_limits_and_grouping simpleUpstream {} [⟨"chA"⟩] ⟨"chA", 10, none⟩ ["chA"]
    (by rfl) (by decide)

/-- C10: the handler forwards no cutoff at all — every search call in a
handler-initiated run carries `publishedBefore = none` — and two
requests that differ only in their (validated) `publishedAfter` get
identical responses against the same upstream: the handler passes the
value under the `publishedAfter` key while the core destructures
`publishedBefore`. -/
theorem C10_publishedAfter_never_forwarded (isValidDate : String → Bool)
    (u : Upstream) (req : HttpRequest) (pa1 pa2 : Option String) (p : SearchParams)
    (h1 : truthy pa1 = true → isValidDate (pa1.getD "") = true)
    (h2 : truthy pa2 = true → isValidDate (pa2.getD "") = true)
    (hp : UpstreamCall.search p ∈ callsOf u (handlerOptions req)) :
    p.publishedBefore = none ∧
    handleGetSubscriptionVideos isValidDate u { req with publishedAfter := pa1 } =
      handleGetSubscriptionVideos isValidDate u { req with publishedAfter := pa2 } := by
  constructor
  · obtain ⟨items', -, c, -, hpeq⟩ := mem_search_callsOf hp
    rw [hpeq]
    rfl
  · have hc1 : (truthy pa1 && !(isValidDate (pa1.getD ""))) = false := by
      cases ht : truthy pa1
      · simp
      · simp [h1 ht]
    have hc2 : (truthy pa2 && !(isValidDate (pa2.getD ""))) = false := by
      cases ht : truthy pa2
      · simp
      · simp [h2 ht]
    have hcoreeq :
        getSubscriptionVideos u (handlerOptions { req with publishedAfter := pa1 }) =
        getSubscriptionVideos u (handlerOptions { req with publishedAfter := pa2 }) :=
      getSubscriptionVideos_options_ext u _ _ rfl rfl rfl
    unfold handleGetSubscriptionVideos
    simp only []
    rw [hcoreeq]
    rw [hc1, hc2]

/-- C10 witness: a dated and an undated request against the same
upstream give the same response, and the search call carries no
cutoff. -/
theorem C10_publishedAfter_never_forwarded_witness :
    (⟨"chA", 10, none⟩ : SearchParams).publishedBefore = none ∧
    handleGetSubscriptionVideos (fun _ => true) simpleUpstream
        { ({} : HttpRequest) with publishedAfter := some "2024-01-01T00:00:00Z" } =
      handleGetSubscriptionVideos (fun _ => true) simpleUpstream
        { ({} : HttpRequest) with publishedAfter := none } :=
  C10_publishedAfter_never_forwarded (fun _ => true) simpleUpstream {}
    (some "2024-01-01T00:00:00Z") none ⟨"chA", 10, none⟩
    (fun _ => rfl) (fun _ => rfl) (by decide)

end YtSubs
